import Mathlib

/-!
Verification of the outline parser, slide projector, key correlator and
artifact pipeline of the Praxis course-generation repository.

The Python sources are shallowly embedded: every `def` below is a direct
translation of the function of the same (or clearly related) name in the
repository; string work is done on `List Char` to mirror Python string
semantics (`strip`, `find`, `split(' ', 1)`, `rstrip('.')`, ...).
-/

/-- Python whitespace for `str.strip()`: space, tab, newline, CR, FF, VT. -/
def isPySpace (c : Char) : Bool :=
  c = ' ' || c = '\t' || c = '\n' || c = '\x0d' || c = '\x0c' || c = '\x0b'

/-- Left part of Python `strip`: drop leading whitespace. -/
def lstripL (l : List Char) : List Char := l.dropWhile isPySpace

/-- Right part of Python `strip`: drop trailing whitespace. -/
def rstripL (l : List Char) : List Char := (l.reverse.dropWhile isPySpace).reverse

/-- Python `str.strip()` on character lists. -/
def pyStripL (l : List Char) : List Char := lstripL (rstripL l)

/-- Python `str.strip()`. -/
def pyStrip (s : String) : String := ⟨pyStripL s.data⟩

/-- Boolean `startswith` on strings (Python `str.startswith`). -/
def startsWithS (s pre : String) : Bool := pre.data.isPrefixOf s.data

/-- Index of the first occurrence of `needle` in `hay` (Python `str.find`,
with `none` for the `-1` case). -/
def findIn (needle hay : List Char) : Option Nat :=
  if needle.isPrefixOf hay then some 0
  else
    match hay with
    | [] => none
    | _ :: t => (findIn needle t).map (· + 1)

/-- Python `sub in s` substring test. -/
def containsSub (hay needle : List Char) : Bool := (findIn needle hay).isSome

/-- Python `line.split(' ', 1)`: split on the first literal space; `none`
models the `len(parts) < 2` case. -/
def splitFirstSpace (l : List Char) : Option (List Char × List Char) :=
  match l with
  | [] => none
  | c :: t =>
      if c = ' ' then some ([], t)
      else (splitFirstSpace t).map (fun p => (c :: p.1, p.2))

/-- Count occurrences of a character (Python `str.count` for 1-char needles). -/
def countChar (c : Char) (l : List Char) : Nat := (l.filter (· = c)).length

/-- Python `str.rstrip('.')`: drop all trailing dots. -/
def rstripDots (l : List Char) : List Char :=
  (l.reverse.dropWhile (· = '.')).reverse

/-- Python `str.isdigit()` restricted to ASCII digits. -/
def isDigits (l : List Char) : Bool := !l.isEmpty && l.all Char.isDigit

/-- Accumulator loop of `pySplitWs`. -/
def splitWsAux : List Char → List Char → List (List Char)
  | [], acc => if acc = [] then [] else [acc.reverse]
  | c :: t, acc =>
      if isPySpace c then
        if acc = [] then splitWsAux t [] else acc.reverse :: splitWsAux t []
      else splitWsAux t (c :: acc)

/-- Python `str.split()` with no argument: split on whitespace runs,
discarding empty pieces. -/
def pySplitWs (s : String) : List String :=
  (splitWsAux s.data []).map (fun l => ⟨l⟩)

/-- Ordered-dict lookup: value of the first pair with the given key. -/
def dget {α : Type} (m : List (String × α)) (k : String) : Option α :=
  (m.find? (fun p => p.1 = k)).map (·.2)

/-- Ordered-dict assignment `m[k] = v`: replace in place, keeping the
original insertion position, else append (Python `dict` semantics). -/
def dictSet {α : Type} (m : List (String × α)) (k : String) (v : α) :
    List (String × α) :=
  match m with
  | [] => [(k, v)]
  | (k0, v0) :: rest =>
      if k0 = k then (k, v) :: rest else (k0, v0) :: dictSet rest k v

/-- Apply `f` to the value stored at `k`, if present (models Python's
in-place mutation of a nested dict entry; a missing key would be a
`KeyError` in the source and is unreachable from the parser's states). -/
def dictModify {α : Type} (m : List (String × α)) (k : String) (f : α → α) :
    List (String × α) :=
  match m with
  | [] => []
  | (k0, v0) :: rest =>
      if k0 = k then (k0, f v0) :: rest else (k0, v0) :: dictModify rest k f

/-- Subtopic node of `parse_outline`'s tree: `{"title": ..., "points": [...]}`. -/
structure SubtopicData where
  title : String
  points : List String
deriving DecidableEq

/-- Topic node: `{"title": ..., "subtopics": {...}}` (insertion-ordered dict). -/
structure TopicData where
  title : String
  subtopics : List (String × SubtopicData)
deriving DecidableEq

/-- Module node: `{"title": ..., "topics": {...}}` (insertion-ordered dict). -/
structure ModuleData where
  title : String
  topics : List (String × TopicData)
deriving DecidableEq

/-- The outline returned by `parse_outline`: an insertion-ordered dict from
module keys (`"Module 1"`, ...) to module data. -/
abbrev Outline := List (String × ModuleData)

/-- The mutable cursors of `parse_outline` plus the tree built so far. -/
structure ParseState where
  outline : Outline
  currentModule : Option String
  currentTopic : Option String
  currentSubtopic : Option String
deriving DecidableEq

/-- `outline[mk]["topics"][tk] = td`. -/
def setTopic (o : Outline) (mk tk : String) (td : TopicData) : Outline :=
  dictModify o mk (fun md => { md with topics := dictSet md.topics tk td })

/-- Update a single topic of a single module in place. -/
def modifyTopic (o : Outline) (mk tk : String) (f : TopicData → TopicData) :
    Outline :=
  dictModify o mk (fun md => { md with topics := dictModify md.topics tk f })

/-- `outline[mk]["topics"][tk]["subtopics"][sk] = sd`. -/
def setSubtopic (o : Outline) (mk tk sk : String) (sd : SubtopicData) :
    Outline :=
  modifyTopic o mk tk (fun td => { td with subtopics := dictSet td.subtopics sk sd })

/-- `outline[mk]["topics"][tk]["subtopics"][sk]["points"].append(p)`. -/
def addPoint (o : Outline) (mk tk sk : String) (p : String) : Outline :=
  modifyTopic o mk tk (fun td =>
    { td with
      subtopics := dictModify td.subtopics sk
        (fun sd => { sd with points := sd.points ++ [p] }) })

/-- One iteration of the line loop of `parse_outline`
(`a05_CREATE_POWERPOINT.py`, lines 643..710): strip the line, split off the
leading token on the first space, count its dots before stripping trailing
dots, and dispatch on the dot count, synthesizing default parents for
orphaned topics and subtopics and dropping orphaned points. -/
def processLine (st : ParseState) (rawLine : String) : ParseState :=
  let line := pyStrip rawLine
  if line = "" then st
  else
    match splitFirstSpace line.data with
    | none => st
    | some (np0, tp) =>
      let title_part : String := ⟨tp⟩
      let num_dots := countChar '.' np0
      let number_part := rstripDots np0
      if num_dots = 0 && isDigits number_part then
        let mkey := "Module " ++ (⟨number_part⟩ : String)
        { outline := dictSet st.outline mkey ⟨pyStrip title_part, []⟩,
          currentModule := some mkey,
          currentTopic := none,
          currentSubtopic := none }
      else if num_dots = 1 then
        let r :=
          match st.currentModule with
          | none => (dictSet st.outline "Module 1" ⟨"Main Module", []⟩, "Module 1")
          | some m => (st.outline, m)
        let tkey := "Topic " ++ (⟨number_part⟩ : String)
        { outline := setTopic r.1 r.2 tkey ⟨pyStrip title_part, []⟩,
          currentModule := some r.2,
          currentTopic := some tkey,
          currentSubtopic := none }
      else if num_dots = 2 then
        let r :=
          match st.currentModule with
          | none => (dictSet st.outline "Module 1" ⟨"Main Module", []⟩, "Module 1")
          | some m => (st.outline, m)
        let r2 :=
          match st.currentTopic with
          | none =>
              let topicPre := number_part.takeWhile (· ≠ '.')
              let tkey := "Topic " ++ (⟨topicPre⟩ : String) ++ ".1"
              (setTopic r.1 r.2 tkey ⟨"Main Topic", []⟩, tkey)
          | some t => (r.1, t)
        let skey := "Subtopic " ++ (⟨number_part⟩ : String)
        { outline := setSubtopic r2.1 r.2 r2.2 skey ⟨pyStrip title_part, []⟩,
          currentModule := some r.2,
          currentTopic := some r2.2,
          currentSubtopic := some skey }
      else if num_dots = 3 then
        match st.currentModule, st.currentTopic, st.currentSubtopic with
        | some cm, some ct, some cs =>
            { st with outline := addPoint st.outline cm ct cs (pyStrip title_part) }
        | _, _, _ => st
      else
        st

/-- Split a character list on newlines (chunks between `'\n'`). -/
def splitNlL (l : List Char) (acc : List Char) : List (List Char) :=
  match l with
  | [] => [acc.reverse]
  | c :: t => if c = '\n' then acc.reverse :: splitNlL t [] else splitNlL t (c :: acc)

/-- Model of Python `f.readlines()` on the file's text: the list of lines
(the kept `"\n"` terminators are always stripped by the source before use,
so lines are represented without them; the empty file gives no lines). -/
def pyReadLines (text : String) : List String :=
  if text = "" then [] else (splitNlL text.data []).map (fun l => ⟨l⟩)

/-- Initial parser state: empty tree, no active cursors. -/
def initState : ParseState := ⟨[], none, none, none⟩

/-- `parse_outline` of `a05_CREATE_POWERPOINT.py` (lines 590..722), with the
file contents passed as a string.  The first line is consumed as the course
title unless its stripped form starts with `"1."`; the remaining lines are
folded through `processLine`.  The source has no failure path: it always
returns a (possibly empty) tree and the title. -/
def parse_outline (text : String) : Outline × String :=
  let lines := pyReadLines text
  match lines with
  | [] => ((lines.foldl processLine initState).outline, "Course Presentation")
  | l0 :: rest =>
      if startsWithS (pyStrip l0) "1." then
        (((l0 :: rest).foldl processLine initState).outline, "Course Presentation")
      else
        ((rest.foldl processLine initState).outline, pyStrip l0)

/-- A slide produced by `prepare_slides_data`: title, bullet content, the
`COLORS` key used for the title color, and the `"type"` tag. -/
structure SlideSpec where
  title : String
  content : List String
  color : String
  type : String
deriving DecidableEq

/-- `topic.split()[1]` of `prepare_slides_data`: the numeric token of a
`"Topic 1.1"` key (the source indexes unconditionally; outside parser
output the default `""` stands for the `IndexError`). -/
def topicNumberOf (tk : String) : String := (pySplitWs tk).getD 1 ""

/-- Module slide of `prepare_slides_data`: title `"{module}: {title}"`,
bullets = the module's topics' titles. -/
def moduleSlide (mk : String) (md : ModuleData) : SlideSpec :=
  ⟨mk ++ ": " ++ md.title, md.topics.map (fun p => p.2.title), "module_title", "module"⟩

/-- Topic slide: title `"{topic_number}: {title}"`, bullets = subtopic titles. -/
def topicSlide (tk : String) (td : TopicData) : SlideSpec :=
  ⟨topicNumberOf tk ++ ": " ++ td.title, td.subtopics.map (fun p => p.2.title),
   "topic_title", "topic"⟩

/-- Subtopic slide: title = the subtopic's title, bullets = its points. -/
def subtopicSlide (sd : SubtopicData) : SlideSpec :=
  ⟨sd.title, sd.points, "subtopic_title", "subtopic"⟩

/-- Inner subtopic loop of `prepare_slides_data` with its two cap checks
(before and after each append, both `break`). -/
def subLoop (subs : List (String × SubtopicData)) (acc : List SlideSpec)
    (max_slides : Nat) : List SlideSpec :=
  match subs with
  | [] => acc
  | (_, sd) :: rest =>
      if acc.length ≥ max_slides then acc
      else
        let acc2 := acc ++ [subtopicSlide sd]
        if acc2.length ≥ max_slides then acc2
        else subLoop rest acc2 max_slides

/-- Topic loop of `prepare_slides_data`: cap check, topic slide, cap check,
then the subtopic loop, then the next topic. -/
def topicLoop (topics : List (String × TopicData)) (acc : List SlideSpec)
    (max_slides : Nat) : List SlideSpec :=
  match topics with
  | [] => acc
  | (tk, td) :: rest =>
      if acc.length ≥ max_slides then acc
      else
        let acc2 := acc ++ [topicSlide tk td]
        if acc2.length ≥ max_slides then acc2
        else topicLoop rest (subLoop td.subtopics acc2 max_slides) max_slides

/-- Module loop of `prepare_slides_data`: modules without topics are
skipped (`continue`); otherwise the module slide is appended, the cap is
checked, the topic loop runs, and the cap is checked again. -/
def moduleLoop (ms : Outline) (acc : List SlideSpec) (max_slides : Nat) :
    List SlideSpec :=
  match ms with
  | [] => acc
  | (mk, md) :: rest =>
      if md.topics = [] then moduleLoop rest acc max_slides
      else
        let acc2 := acc ++ [moduleSlide mk md]
        if acc2.length ≥ max_slides then acc2
        else
          let acc3 := topicLoop md.topics acc2 max_slides
          if acc3.length ≥ max_slides then acc3
          else moduleLoop rest acc3 max_slides

/-- `prepare_slides_data` of `a05_CREATE_POWERPOINT.py` (lines 724..798):
depth-first projection of the outline into slide specs, capped at
`max_slides` (checked after every emission). -/
def prepare_slides_data (outline_data : Outline) (max_slides : Nat) :
    List SlideSpec :=
  moduleLoop outline_data [] max_slides

/-- Spec-side subtopic slides of a topic, one per subtopic, in order. -/
def subSlides (subs : List (String × SubtopicData)) : List SlideSpec :=
  subs.map (fun s => subtopicSlide s.2)

/-- Spec-side slides of a topic list: one topic slide then its subtopic
slides, per topic, in order. -/
def topicSlides (topics : List (String × TopicData)) : List SlideSpec :=
  topics.flatMap (fun t => topicSlide t.1 t.2 :: subSlides t.2.subtopics)

/-- Spec-side slides of one module entry: nothing for a topic-less module,
else the module slide followed by its topics' slides. -/
def moduleSlides (m : String × ModuleData) : List SlideSpec :=
  if m.2.topics = [] then [] else moduleSlide m.1 m.2 :: topicSlides m.2.topics

/-- Modelled from the spec: the uncapped depth-first projection used to
state what `prepare_slides_data` emits when the cap is never reached — one
slide per Module (with at least one Topic), per Topic and per Subtopic, in
insertion order, with the bullet contents described in §4.2. -/
def projectFullSpec (o : Outline) : List SlideSpec :=
  o.flatMap moduleSlides

/-- The `"```json"` opening fence marker searched for by the JSON cleaners. -/
def jsonFenceL : List Char := "```json".data

/-- The `"```"` fence marker. -/
def fenceL : List Char := "```".data

/-- The `"\x7b"` character the cleaners anchor on. -/
def braceL : List Char := "\x7b".data

/-- Python slice `l[a:b]` (for `a ≤ b`). -/
def sliceL (l : List Char) (a b : Nat) : List Char := (l.drop a).take (b - a)

/-- `clean_json_response` of `a06_Image_Generation.py` (lines 166..189), the
same logic appearing inline in `a06-Student_Notes_Student_Handbook.py`
(lines 216..231): extract the contents of a ```json fenced block when one
is present, strip, and if the result does not start with `\x7b` cut
everything before the first `\x7b`. -/
def clean_json_response (response : String) : String :=
  let r0 := response.data
  let r1 :=
    if containsSub r0 jsonFenceL then
      let json_start := (findIn jsonFenceL r0).getD 0 + 7
      match findIn fenceL (r0.drop json_start) with
      | some k =>
          let json_end := json_start + k
          if json_start < json_end then pyStripL (sliceL r0 json_start json_end)
          else r0
      | none => r0
    else r0
  let r2 := pyStripL r1
  let r3 :=
    if braceL.isPrefixOf r2 then r2
    else
      match findIn braceL r2 with
      | some i => r2.drop i
      | none => r2
  ⟨r3⟩

/-- A response consisting of a JSON text wrapped in a ```json fenced block. -/
def wrapFence (j : String) : String := "```json\n" ++ j ++ "\n```"

/-- `create_fallback_prompt` of `a06_Image_Generation.py` (lines 216..227)
with the module's `config` values substituted. -/
def create_fallback_prompt (slide_title : String) : String :=
  "Create a professional image representing " ++ slide_title ++
  ". Style: professional business. Focus on people and technology concepts with an exciting and modern design with modern corporate looke."

/-- `get_enhanced_prompt` of `a06_Image_Generation.py` (lines 304..321),
with the global `prompt_cache` passed explicitly: a cached prompt for the
slide's title wins, otherwise the fallback is synthesized from the title.
The `slide_content` argument is accepted and, as in the source, never used. -/
def get_enhanced_prompt (prompt_cache : List (String × String))
    (slide_title slide_content : String) : String :=
  match dget prompt_cache slide_title with
  | some p => p
  | none => create_fallback_prompt slide_title

/-- JSON whitespace. -/
def isJsonWs (c : Char) : Bool := c = ' ' || c = '\t' || c = '\n' || c = '\x0d'

/-- Body of a JSON string literal (after the opening quote): returns the
decoded string and the rest of the input.  Part of the minimal model of
`json.loads` restricted to flat string-to-string objects — the shape the
artifact JSON contract prescribes; used only for concrete evaluations. -/
def jstrBody : List Char → List Char → Option (String × List Char)
  | [], _ => none
  | c :: rest, acc =>
      if c = '"' then some (⟨acc.reverse⟩, rest)
      else if c = '\\' then
        match rest with
        | [] => none
        | e :: rest2 =>
            if e = '"' then jstrBody rest2 ('"' :: acc)
            else if e = '\\' then jstrBody rest2 ('\\' :: acc)
            else if e = '/' then jstrBody rest2 ('/' :: acc)
            else if e = 'n' then jstrBody rest2 ('\n' :: acc)
            else if e = 't' then jstrBody rest2 ('\t' :: acc)
            else if e = 'r' then jstrBody rest2 ('\x0d' :: acc)
            else none
      else jstrBody rest (c :: acc)

/-- A JSON string literal starting at a quote. -/
def jstr : List Char → Option (String × List Char)
  | [] => none
  | c :: rest => if c = '"' then jstrBody rest [] else none

/-- Comma-separated `"key": "value"` pairs up to the closing brace
(duplicate keys overwrite, as in `json.loads`). -/
def jpairs : Nat → List Char → List (String × String) →
    Option (List (String × String))
  | 0, _, _ => none
  | fuel + 1, l, acc =>
    match jstr (l.dropWhile isJsonWs) with
    | none => none
    | some (k, rest) =>
      match rest.dropWhile isJsonWs with
      | ':' :: rest2 =>
        match jstr (rest2.dropWhile isJsonWs) with
        | none => none
        | some (v, rest3) =>
          match rest3.dropWhile isJsonWs with
          | ',' :: rest4 => jpairs fuel rest4 (dictSet acc k v)
          | '\x7d' :: rest4 =>
              if rest4.dropWhile isJsonWs = [] then some (dictSet acc k v) else none
          | _ => none
      | _ => none

/-- Minimal model of `json.loads` restricted to flat string-to-string
objects (the artifact JSON contract of §6). -/
def jsonParseFlat (s : String) : Option (List (String × String)) :=
  match s.data.dropWhile isJsonWs with
  | '\x7b' :: rest =>
    match rest.dropWhile isJsonWs with
    | '\x7d' :: rest2 => if rest2.dropWhile isJsonWs = [] then some [] else none
    | _ => jpairs (rest.length + 1) rest []
  | _ => none

/-- The response-parsing step of `generate_all_image_prompts`
(`a06_Image_Generation.py`, lines 276..296): clean the raw response, try to
parse it as JSON, and on failure synthesize one fallback entry per slide
(`slides_info` carries `(title, content)` pairs). -/
def parse_prompt_response (slides_info : List (String × String)) (raw : String) :
    List (String × String) :=
  match jsonParseFlat (clean_json_response raw) with
  | some m => m
  | none => slides_info.map (fun s => (s.1, create_fallback_prompt s.1))

/-- Python `str.replace(old, new)` for non-empty `old`: replace every
non-overlapping occurrence, scanning left to right.  (The source only ever
uses the non-empty needle `" Fundamentals"`.) -/
def replaceFuel : Nat → List Char → List Char → List Char → List Char
  | 0, l, _, _ => l
  | _ + 1, [], _, _ => []
  | fuel + 1, c :: t, old, new =>
      if old ≠ [] ∧ old.isPrefixOf (c :: t) then
        new ++ replaceFuel fuel ((c :: t).drop old.length) old new
      else c :: replaceFuel fuel t old new

/-- Python `str.replace` on strings (each loop step consumes at least one
character, so `s.length` steps always suffice). -/
def pyReplace (s old new : String) : String :=
  ⟨replaceFuel s.data.length s.data old.data new.data⟩

/-- Python `str.lower()` (ASCII). -/
def lowerS (s : String) : String := ⟨s.data.map Char.toLower⟩

/-- The ordered list of historical title-key variants tried by
`create_title_slide` (`a05_CREATE_POWERPOINT.py`, lines 411..424). -/
def course_variants (course_name : String) : List String :=
  let base := pyReplace course_name " Fundamentals" ""
  [course_name, "Course: " ++ course_name, "Course: Cisco AI Defense",
   "Title: " ++ course_name, "Title Slide"] ++
  (if base ≠ course_name then [base, "Course: " ++ base] else [])

/-- The templated fallback speaker notes synthesized by `create_title_slide`
when no key matches. -/
def welcome_fallback (course_name : String) : String :=
  "Welcome to the course: " ++ course_name ++
  ". This comprehensive course will provide you with in-depth knowledge and practical skills about " ++
  course_name ++
  ". Throughout this course, you will learn key concepts, best practices, and hands-on techniques that you can apply in real-world scenarios. Let\x27s begin our journey into " ++
  course_name ++ "."

/-- Title-slide notes resolution of `create_title_slide`
(`a05_CREATE_POWERPOINT.py`, lines 405..457): with a non-empty notes map,
try the known key variants in order, then scan for a key that starts with
`"course:"` or contains `"title"` (case-insensitive), then fall back to the
synthesized welcome notes.  There is no single-entry rule on this path. -/
def resolve_title_notes (course_name : String)
    (enhanced_notes : List (String × String)) : String :=
  if enhanced_notes = [] then welcome_fallback course_name
  else
    match (course_variants course_name).findSome? (fun k => dget enhanced_notes k) with
    | some v => v
    | none =>
      match enhanced_notes.find? (fun kv =>
          startsWithS (lowerS kv.1) "course:" ||
          containsSub (lowerS kv.1).data "title".data) with
      | some kv => kv.2
      | none => welcome_fallback course_name

/-- Single-slide notes resolution of `add_speaker_notes_to_presentation`
(`a06-Student_Notes_Student_Handbook.py`, lines 298..351): first a
non-empty slide text with an exact key, then the directory-derived
fallback title, then — if the map has exactly one entry — that entry. -/
def resolve_single_slide_note (slideTexts : List String)
    (fallbackTitle : Option String)
    (slide_notes_dict : List (String × String)) : Option String :=
  match slideTexts.findSome? (fun t => if t ≠ "" then dget slide_notes_dict t else none) with
  | some v => some v
  | none =>
    match fallbackTitle.bind (fun ft => dget slide_notes_dict ft) with
    | some v => some v
    | none =>
        if slide_notes_dict.length = 1 then slide_notes_dict.head?.map (·.2)
        else none

/-- `"".join`-style sanitizer of `generate_snapshots_for_presentation`
(`a07_Slide_Snapshot_Generator.py`, line 238): non-alphanumerics become
underscores. -/
def sanitizeTitle (t : String) : String :=
  ⟨t.data.map (fun c => if c.isAlphanum then c else '_')⟩

/-- Python `f"{n:0{width}d}"`: decimal rendering left-padded with zeros. -/
def padNum (width n : Nat) : String :=
  let s := toString n
  (⟨List.replicate (width - s.length) '0'⟩ : String) ++ s

/-- The snapshot filenames emitted by `generate_snapshots_for_presentation`
(`a07_Slide_Snapshot_Generator.py`, lines 186..240): the title snapshot is
`"00_snapshot_title_slide.png"`, each content slide gets a 3-digit 1-based
prefix from its position (`list(slides_data).index(slide) + 1`). -/
def snapshot_filenames (slides_data : List (String × List String))
    (hasTitleSlide : Bool) : List String :=
  (if hasTitleSlide then ["00_snapshot_title_slide.png"] else []) ++
  slides_data.map (fun s =>
    padNum 3 (slides_data.indexOf s + 1) ++ "_snapshot_" ++ sanitizeTitle s.1 ++ ".png")

/-- The per-slide image filename of `generate_slide_images_parallel`
(`a05_CREATE_POWERPOINT.py`, line 856): 2-digit 1-based prefix. -/
def image_filename (slide_num : Nat) : String := padNum 2 slide_num ++ "_slide.png"

/-- Lexicographic (code-point) comparison, as Python compares strings. -/
def lexLt : List Char → List Char → Bool
  | _, [] => false
  | [], _ :: _ => true
  | x :: xs, y :: ys => if x < y then true else if y < x then false else lexLt xs ys

/-- Insertion step of `pySorted`. -/
def insertSorted (x : String) : List String → List String
  | [] => [x]
  | y :: ys => if lexLt x.data y.data then x :: y :: ys else y :: insertSorted x ys

/-- Python `sorted` on a list of strings (insertion sort, code-point order). -/
def pySorted (l : List String) : List String := l.foldr insertSorted []

/-- The C1/§8 scenario text. -/
def demoOutlineText : String :=
  "AI 101\n1. Security\n1.1 Basics\n1.1.1 Intro\n1.1.1.1 Point A\n1.1.1.2 Point B"

/-- The outline the parser actually produces for `demoOutlineText`. -/
def demoOutline : Outline :=
  [("Module 1",
    ⟨"Main Module",
     [("Topic 1", ⟨"Security", []⟩),
      ("Topic 1.1", ⟨"Basics", [("Subtopic 1.1.1", ⟨"Intro", ["Point A", "Point B"]⟩)]⟩)]⟩)]

/-- A two-module outline used for the `max_slides = 1` scenario. -/
def capDemoOutline : Outline :=
  [("Module 1", ⟨"A", [("Topic 1.1", ⟨"T1", [("Subtopic 1.1.1", ⟨"S1", ["p"]⟩)]⟩)]⟩),
   ("Module 2", ⟨"B", [("Topic 2.1", ⟨"T2", []⟩)]⟩)]

/-- C10: artifact resolution for a content slide depends only on the
slide's title: `get_enhanced_prompt` never inspects its content argument,
whether the title hits the prompt cache or falls back, so two slides with
equal titles and different content always receive identical prompts. -/
theorem C10_prompt_content_independent
    (prompt_cache : List (String × String)) (title c1 c2 : String) :
    get_enhanced_prompt prompt_cache title c1 = get_enhanced_prompt prompt_cache title c2 := rfl

/-- C9: at the one-content-slide failing input, the snapshot filenames are
`00_snapshot_title_slide.png` (title) and `001_snapshot_A.png` (content,
3-digit prefix), and lexicographic sorting puts the content slide FIRST —
`'1' < '_'` in code-point order — so sorting does not reconstruct
presentation order with the title slide first, contradicting the claim and
the source's own comment; moreover the 2-digit image prefixes of
`image_filename` break lexicographic order past 99 slides. -/
theorem C9_title_slide_not_first :
    snapshot_filenames [("A", [])] true =
      ["00_snapshot_title_slide.png", "001_snapshot_A.png"] ∧
    pySorted (snapshot_filenames [("A", [])] true) =
      ["001_snapshot_A.png", "00_snapshot_title_slide.png"] ∧
    (pySorted (snapshot_filenames [("A", [])] true)).head? ≠
      some "00_snapshot_title_slide.png" ∧
    lexLt (image_filename 100).data (image_filename 99).data = true := by decide

/-- C1 counterexample: on the scenario text, `"1. Security"` is parsed as a
Topic, not a Module — `num_dots` is counted before the trailing dot is
stripped — so the single module is the synthesized `"Main Module"`, not a
module titled `"Security"`, and it contains two topics. -/
theorem C1_counterexample :
    parse_outline demoOutlineText = (demoOutline, "AI 101") ∧
    demoOutline.all (fun m => m.2.title ≠ "Security") := by decide

/-- C1 amended: dots are counted before the trailing dot is stripped, so
`"1. Security"` is a level-1 (Topic) line; the scenario parses to one
synthesized Module `"Main Module"` holding Topics `"Security"` (empty) and
`"Basics"` (whose Subtopic `"Intro"` has points A and B), and projecting
with `max_slides = 10` still yields exactly 4 slides, the Subtopic slide's
content being `["Point A", "Point B"]`. -/
theorem C1_amended_scenario :
    parse_outline demoOutlineText = (demoOutline, "AI 101") ∧
    prepare_slides_data demoOutline 10 =
      [⟨"Module 1: Main Module", ["Security", "Basics"], "module_title", "module"⟩,
       ⟨"1: Security", [], "topic_title", "topic"⟩,
       ⟨"1.1: Basics", ["Intro"], "topic_title", "topic"⟩,
       ⟨"Intro", ["Point A", "Point B"], "subtopic_title", "subtopic"⟩] ∧
    (prepare_slides_data demoOutline 10).length = 4 := by decide

/-- C5 counterexample: a first line with a `"1 "` prefix (but not `"1."`)
is consumed as the course title — the source only tests
`startswith("1.")` — whereas the claim says the title should fall back to
the default and the line be parsed as content. -/
theorem C5_counterexample :
    (parse_outline "1 Intro\n1.1 T").2 = "1 Intro" ∧
    (parse_outline "1 Intro\n1.1 T").2 ≠ "Course Presentation" := by decide

/-- C5 amended: the first line (stripped) becomes the course title unless
its stripped form starts with `"1."` — only that prefix is tested — in
which case the title is the fixed default and the line is parsed as
outline content with the rest. -/
theorem C5_amended_title_rule (text l : String) (ls : List String)
    (h : pyReadLines text = l :: ls) :
    parse_outline text =
      (if startsWithS (pyStrip l) "1." then
        (((l :: ls).foldl processLine initState).outline, "Course Presentation")
      else ((ls.foldl processLine initState).outline, pyStrip l)) := by
  simp only [parse_outline, h]

/-- Witness for `C5_amended_title_rule` at the concrete text `"1. A"`. -/
theorem C5_amended_witness :
    pyReadLines "1. A" = ["1. A"] ∧
    parse_outline "1. A" =
      (if startsWithS (pyStrip "1. A") "1." then
        ((["1. A"].foldl processLine initState).outline, "Course Presentation")
      else ((([] : List String).foldl processLine initState).outline, pyStrip "1. A")) :=
  ⟨rfl, C5_amended_title_rule "1. A" "1. A" [] rfl⟩

set_option maxRecDepth 8192 in
/-- C2 counterexample: `create_title_slide`'s notes resolution has no
single-entry rule: with the one-entry map `[("xyz", "N")]` — whose key
matches no known variant and no heuristic — the title-slide lookup
synthesizes the templated fallback instead of returning `"N"`. -/
theorem C2_counterexample :
    resolve_title_notes "AI" [("xyz", "N")] = welcome_fallback "AI" ∧
    resolve_title_notes "AI" [("xyz", "N")] ≠ "N" := by decide

/-- C2 amended: the single-candidate rule lives in the student-notes
single-slide path, not in `create_title_slide`: when the notes map has
exactly one entry and both the slide-text lookup and the directory-derived
fallback title miss, `resolve_single_slide_note` returns that entry
(whereas `create_title_slide`'s resolution, lacking the rule, falls through
to the synthesized template — see the counterexample). -/
theorem C2_amended_single_candidate (slideTexts : List String)
    (fallbackTitle : Option String) (k v : String)
    (h1 : ∀ t ∈ slideTexts, t = "" ∨ dget [(k, v)] t = none)
    (h2 : ∀ ft, fallbackTitle = some ft → dget [(k, v)] ft = none) :
    resolve_single_slide_note slideTexts fallbackTitle [(k, v)] = some v := by
  unfold resolve_single_slide_note
  have hfs : slideTexts.findSome?
      (fun t => if t ≠ "" then dget [(k, v)] t else none) = none := by
    rw [List.findSome?_eq_none_iff]
    intro t ht
    rcases h1 t ht with h | h
    · simp [h]
    · simp [h]
  rw [hfs]
  cases hft : fallbackTitle with
  | none => simp [Option.bind]
  | some ft => simp [Option.bind, h2 ft hft]

/-- Witness for `C2_amended_single_candidate` at a concrete one-entry map. -/
theorem C2_amended_witness :
    resolve_single_slide_note ["Hello"] (some "Course: X") [("xyz", "N")] = some "N" :=
  C2_amended_single_candidate ["Hello"] (some "Course: X") "xyz" "N"
    (by intro t ht; simp at ht; subst ht; right; decide)
    (by intro ft hft; injection hft with hft2; subst hft2; decide)

/-- C8 counterexample: on the empty input the parser does not fail — the
source has no raise path at all (the embedding is a total function) — it
returns the empty tree and the default title, refuting "fails with
ParseError if and only if the input is empty". -/
theorem C8_counterexample :
    parse_outline "" = ([], "Course Presentation") := by decide

/-- Lines whose stripped form has no space are skipped by the line loop
(`len(parts) < 2` in the source). -/
theorem processLine_skips_spaceless (st : ParseState) (line : String)
    (h : ((pyStrip line).data.contains ' ') = false) :
    processLine st line = st := by
  unfold processLine
  by_cases he : pyStrip line = ""
  · simp [he]
  · have hsp : splitFirstSpace (pyStrip line).data = none := by
      generalize (pyStrip line).data = l at h ⊢
      induction l with
      | nil => rfl
      | cons c t ih =>
          simp only [List.contains_cons, Bool.or_eq_false_iff] at h
          have hc : ¬ (c = ' ') := by
            intro hc0; subst hc0; simp at h
          simp only [splitFirstSpace, if_neg hc, ih h.2, Option.map_none']
    simp [he, hsp]

/-- C8 amended: parsing never fails for any input: empty input yields the
empty tree (no `ParseError` exists in the source), and an input whose
every line is malformed (here: no space separator) also yields the empty
tree — malformed lines are skipped, never fatal. -/
theorem C8_amended_total (text : String)
    (h : ∀ l ∈ pyReadLines text, ((pyStrip l).data.contains ' ') = false) :
    (parse_outline text).1 = [] := by
  have hfold : ∀ (L : List String), (∀ l ∈ L, ((pyStrip l).data.contains ' ') = false) →
      ∀ st : ParseState, L.foldl processLine st = st := by
    intro L
    induction L with
    | nil => intro _ _; rfl
    | cons x xs ih =>
        intro hL st
        have hx := hL x (by simp)
        simp only [List.foldl_cons, processLine_skips_spaceless st x hx]
        exact ih (fun l hl => hL l (by simp [hl])) st
  unfold parse_outline
  cases hlines : pyReadLines text with
  | nil => simp [initState]
  | cons l0 rest =>
      have h0 : ∀ l ∈ l0 :: rest, ((pyStrip l).data.contains ' ') = false := by
        rw [← hlines]; exact h
      by_cases hs : startsWithS (pyStrip l0) "1."
      · simp only [hs, if_pos, hfold _ h0 initState]
        simp [initState]
      · simp only [hs, if_neg, Bool.false_eq_true, ite_false,
          hfold rest (fun l hl => h0 l (by simp [hl])) initState]
        simp [initState]

/-- Witness for `C8_amended_total` on a concrete all-malformed input. -/
theorem C8_amended_witness :
    (∀ l ∈ pyReadLines "NoSpacesHere\nstillnone", ((pyStrip l).data.contains ' ') = false) ∧
    (parse_outline "NoSpacesHere\nstillnone").1 = [] :=
  ⟨by decide, C8_amended_total "NoSpacesHere\nstillnone" (by decide)⟩

/-- The subtopic loop never grows past the cap it was given. -/
theorem subLoop_length_le (subs : List (String × SubtopicData))
    (acc : List SlideSpec) (m : Nat) (h : acc.length ≤ m) :
    (subLoop subs acc m).length ≤ m := by
  induction subs generalizing acc with
  | nil => simpa [subLoop]
  | cons s rest ih =>
      rw [subLoop]
      dsimp only
      split
      · exact h
      · rename_i h1
        split
        · simp only [List.length_append, List.length_singleton]
          omega
        · exact ih _ (by simp only [List.length_append, List.length_singleton]; omega)

/-- The topic loop never grows past the cap it was given. -/
theorem topicLoop_length_le (topics : List (String × TopicData))
    (acc : List SlideSpec) (m : Nat) (h : acc.length ≤ m) :
    (topicLoop topics acc m).length ≤ m := by
  induction topics generalizing acc with
  | nil => simpa [topicLoop]
  | cons t rest ih =>
      rw [topicLoop]
      dsimp only
      split
      · exact h
      · rename_i h1
        split
        · simp only [List.length_append, List.length_singleton]
          omega
        · exact ih _ (subLoop_length_le t.2.subtopics _ m
            (by simp only [List.length_append, List.length_singleton]; omega))

/-- The module loop, entered strictly below the cap, never exceeds it. -/
theorem moduleLoop_length_le (ms : Outline) (acc : List SlideSpec) (m : Nat)
    (h : acc.length < m) : (moduleLoop ms acc m).length ≤ m := by
  induction ms generalizing acc with
  | nil => simpa [moduleLoop] using Nat.le_of_lt h
  | cons md rest ih =>
      rw [moduleLoop]
      dsimp only
      split
      · exact ih acc h
      · split
        · simp only [List.length_append, List.length_singleton]
          omega
        · rename_i h3
          split
          · exact topicLoop_length_le md.2.topics _ m
              (by simp only [List.length_append, List.length_singleton]; omega)
          · rename_i h5
            exact ih _ (Nat.lt_of_not_le (by simpa using h5))

/-- C4: for every outline and every `max_slides ≥ 1` the projection emits
at most `max_slides` slides (the cap is checked after every emission and
stops the traversal), and on the concrete two-module outline
`capDemoOutline`, `max_slides = 1` yields exactly the first module's slide
and no topic or subtopic slide even from that module. -/
theorem C4_max_slides_cap :
    (∀ (o : Outline) (m : Nat), 1 ≤ m → (prepare_slides_data o m).length ≤ m) ∧
    prepare_slides_data capDemoOutline 1 =
      [⟨"Module 1: A", ["T1"], "module_title", "module"⟩] ∧
    capDemoOutline.length = 2 :=
  ⟨fun o m hm => moduleLoop_length_le o [] m (by simpa using hm),
   by decide, by decide⟩

/-- Witness for the capped projection bound of `C4_max_slides_cap`. -/
theorem C4_cap_witness :
    1 ≤ (1 : Nat) ∧ (prepare_slides_data capDemoOutline 1).length ≤ 1 :=
  ⟨by decide, C4_max_slides_cap.1 capDemoOutline 1 (by decide)⟩

/-- With enough cap budget the subtopic loop appends exactly one slide per
subtopic. -/
theorem subLoop_run (subs : List (String × SubtopicData)) (acc : List SlideSpec)
    (m : Nat) (h : acc.length + subs.length ≤ m) :
    subLoop subs acc m = acc ++ subSlides subs := by
  induction subs generalizing acc with
  | nil => simp [subLoop, subSlides]
  | cons s rest ih =>
      rw [subLoop]
      dsimp only
      simp only [List.length_cons] at h
      rw [if_neg (by omega)]
      by_cases h2 : (acc ++ [subtopicSlide s.2]).length ≥ m
      · simp only [List.length_append, List.length_singleton] at h2
        have hrest : rest = [] := List.eq_nil_of_length_eq_zero (by omega)
        subst hrest
        simp [h2, subSlides]
      · rw [if_neg h2]
        rw [ih _ (by simp only [List.length_append, List.length_singleton]; omega)]
        simp [subSlides]

/-- With enough cap budget the topic loop appends exactly one topic slide
plus the subtopic slides, per topic. -/
theorem topicLoop_run (topics : List (String × TopicData)) (acc : List SlideSpec)
    (m : Nat) (h : acc.length + (topicSlides topics).length ≤ m) :
    topicLoop topics acc m = acc ++ topicSlides topics := by
  induction topics generalizing acc with
  | nil => simp [topicLoop, topicSlides]
  | cons t rest ih =>
      rw [topicLoop]
      dsimp only
      have hlen : (topicSlides (t :: rest)).length =
          1 + (subSlides t.2.subtopics).length + (topicSlides rest).length := by
        simp [topicSlides, List.flatMap_cons]
        omega
      rw [hlen] at h
      have hss : (subSlides t.2.subtopics).length = t.2.subtopics.length := by
        simp [subSlides]
      have e3 : topicSlides (t :: rest) =
          topicSlide t.1 t.2 :: (subSlides t.2.subtopics ++ topicSlides rest) := by
        simp [topicSlides, List.flatMap_cons]
      rw [if_neg (by omega)]
      by_cases h2 : (acc ++ [topicSlide t.1 t.2]).length ≥ m
      · simp only [List.length_append, List.length_singleton] at h2
        have e1 : subSlides t.2.subtopics = [] :=
          List.eq_nil_of_length_eq_zero (by omega)
        have e2 : topicSlides rest = [] :=
          List.eq_nil_of_length_eq_zero (by omega)
        rw [if_pos (by simp only [List.length_append, List.length_singleton]; omega)]
        rw [e3, e1, e2]
        simp
      · simp only [List.length_append, List.length_singleton] at h2
        rw [if_neg (by simpa using h2)]
        rw [subLoop_run t.2.subtopics _ m
          (by simp only [List.length_append, List.length_singleton]; omega)]
        rw [ih _ (by simp only [List.length_append, List.length_singleton]; omega)]
        rw [e3]
        simp

/-- With enough cap budget the module loop appends exactly the spec-side
projection of the remaining modules. -/
theorem moduleLoop_run (ms : Outline) (acc : List SlideSpec) (m : Nat)
    (h : acc.length + (projectFullSpec ms).length ≤ m) :
    moduleLoop ms acc m = acc ++ projectFullSpec ms := by
  induction ms generalizing acc with
  | nil => simp [moduleLoop, projectFullSpec]
  | cons md rest ih =>
      rw [moduleLoop]
      dsimp only
      have hspec : projectFullSpec (md :: rest) =
          moduleSlides md ++ projectFullSpec rest := by
        simp [projectFullSpec, List.flatMap_cons]
      by_cases h0 : md.2.topics = []
      · have hmd : moduleSlides md = [] := by simp [moduleSlides, h0]
        rw [if_pos h0]
        rw [ih acc (by rw [hspec, hmd] at h; simpa using h)]
        rw [hspec, hmd]
        simp
      · have hmd : moduleSlides md = moduleSlide md.1 md.2 :: topicSlides md.2.topics := by
          simp [moduleSlides, h0]
        have htlen : 1 ≤ (topicSlides md.2.topics).length := by
          rcases hx : md.2.topics with _ | ⟨t, ts⟩
          · exact absurd hx h0
          · simp [topicSlides, List.flatMap_cons]
        rw [hspec, hmd] at h
        simp only [List.length_cons, List.length_append] at h
        rw [if_neg h0]
        rw [if_neg (by simp only [List.length_append, List.length_singleton]; omega)]
        rw [topicLoop_run md.2.topics _ m
          (by simp only [List.length_append, List.length_singleton]; omega)]
        by_cases h5 : ((acc ++ [moduleSlide md.1 md.2]) ++ topicSlides md.2.topics).length ≥ m
        · simp only [List.length_append, List.length_singleton] at h5
          have hrest : (projectFullSpec rest).length = 0 := by omega
          rw [if_pos (by simp only [List.length_append, List.length_singleton]; omega)]
          rw [hspec, hmd, List.eq_nil_of_length_eq_zero hrest]
          simp
        · rw [if_neg h5]
          rw [ih _ (by simp only [List.length_append, List.length_singleton]; omega)]
          rw [hspec, hmd]
          simp

/-- C3 counterexample: the parsed outline of `"X\n1 Solo"` has exactly one
Module, but projection emits no slide at all for it — a Module without
Topics is skipped — refuting "exactly one SlideSpec per Module". -/
theorem C3_counterexample :
    parse_outline "X\n1 Solo" = ([("Module 1", ⟨"Solo", []⟩)], "X") ∧
    prepare_slides_data [("Module 1", ⟨"Solo", []⟩)] 10 = [] ∧
    ([("Module 1", ⟨"Solo", []⟩)] : Outline).length = 1 := by decide

/-- C3 amended: whenever the cap is not reached, projection traverses the
outline depth-first in insertion order emitting one SlideSpec per Module
that has at least one Topic (topic-less Modules are skipped entirely), one
per Topic and one per Subtopic and never one per Point; the Module slide's
bullets are its Topics' titles, the Topic slide's bullets are its
Subtopics' titles, and the Subtopic slide's bullets are its Points — i.e.
the capped loop equals the spec-side projection `projectFullSpec`. -/
theorem C3_projection_structure (o : Outline) (max_slides : Nat)
    (h : (projectFullSpec o).length ≤ max_slides) :
    prepare_slides_data o max_slides = projectFullSpec o := by
  have := moduleLoop_run o [] max_slides (by simpa using h)
  simpa [prepare_slides_data] using this

/-- Witness for `C3_projection_structure` on the demo outline. -/
theorem C3_projection_witness :
    (projectFullSpec demoOutline).length ≤ 10 ∧
    prepare_slides_data demoOutline 10 = projectFullSpec demoOutline :=
  ⟨by decide, C3_projection_structure demoOutline 10 (by decide)⟩

/-- C6: the parser tolerates malformed hierarchy: (1) a Topic line (one
dot in its leading token) arriving with no active Module creates the
parent `"Module 1"` titled `"Main Module"` containing it; (2) a Subtopic
line (two dots) arriving with no active Topic creates a default parent
Topic keyed from the subtopic's own numeric prefix (first segment, with
`".1"` appended) titled `"Main Topic"`; (3) a Point line (three dots)
arriving with any cursor missing is silently dropped — the state,
including the tree, is unchanged. -/
theorem C6_placeholder_parents :
    (∀ (st : ParseState) (line : String) (np0 tp : List Char),
      st.currentModule = none →
      splitFirstSpace (pyStrip line).data = some (np0, tp) →
      countChar '.' np0 = 1 →
      processLine st line =
        { outline := setTopic (dictSet st.outline "Module 1" ⟨"Main Module", []⟩)
            "Module 1" ("Topic " ++ (⟨rstripDots np0⟩ : String)) ⟨pyStrip ⟨tp⟩, []⟩,
          currentModule := some "Module 1",
          currentTopic := some ("Topic " ++ (⟨rstripDots np0⟩ : String)),
          currentSubtopic := none }) ∧
    (∀ (st : ParseState) (line : String) (np0 tp : List Char) (m : String),
      st.currentModule = some m →
      st.currentTopic = none →
      splitFirstSpace (pyStrip line).data = some (np0, tp) →
      countChar '.' np0 = 2 →
      processLine st line =
        { outline := setSubtopic
            (setTopic st.outline m
              ("Topic " ++ (⟨(rstripDots np0).takeWhile (· ≠ '.')⟩ : String) ++ ".1")
              ⟨"Main Topic", []⟩)
            m ("Topic " ++ (⟨(rstripDots np0).takeWhile (· ≠ '.')⟩ : String) ++ ".1")
            ("Subtopic " ++ (⟨rstripDots np0⟩ : String)) ⟨pyStrip ⟨tp⟩, []⟩,
          currentModule := some m,
          currentTopic := some ("Topic " ++ (⟨(rstripDots np0).takeWhile (· ≠ '.')⟩ : String) ++ ".1"),
          currentSubtopic := some ("Subtopic " ++ (⟨rstripDots np0⟩ : String)) }) ∧
    (∀ (st : ParseState) (line : String) (np0 tp : List Char),
      splitFirstSpace (pyStrip line).data = some (np0, tp) →
      countChar '.' np0 = 3 →
      (st.currentModule = none ∨ st.currentTopic = none ∨ st.currentSubtopic = none) →
      processLine st line = st) := by
  refine ⟨?_, ?_, ?_⟩
  · intro st line np0 tp hm hsp hdots
    have hne : ¬ (pyStrip line = "") := by
      intro h0
      rw [h0] at hsp
      rw [(by decide : splitFirstSpace "".data = none)] at hsp
      exact Option.noConfusion hsp
    unfold processLine
    rw [if_neg hne, hsp]
    simp [hdots, hm]
  · intro st line np0 tp m hm ht hsp hdots
    have hne : ¬ (pyStrip line = "") := by
      intro h0
      rw [h0] at hsp
      rw [(by decide : splitFirstSpace "".data = none)] at hsp
      exact Option.noConfusion hsp
    unfold processLine
    rw [if_neg hne, hsp]
    simp [hdots, hm, ht]
  · intro st line np0 tp hsp hdots hcur
    have hne : ¬ (pyStrip line = "") := by
      intro h0
      rw [h0] at hsp
      rw [(by decide : splitFirstSpace "".data = none)] at hsp
      exact Option.noConfusion hsp
    unfold processLine
    rw [if_neg hne, hsp]
    simp only [hdots]
    norm_num
    rcases hcur with h | h | h
    · rw [h]
    · rw [h]
      cases st.currentModule <;> rfl
    · rw [h]
      cases st.currentModule <;> cases st.currentTopic <;> rfl

/-- Witness for `C6_placeholder_parents`: the §8 scenario line `"2.1 Foo"`
with no preceding Module line yields the synthesized
`"Module 1"`/`"Main Module"` parent containing the topic. -/
theorem C6_witness :
    processLine initState "2.1 Foo" =
      ⟨[("Module 1", ⟨"Main Module", [("Topic 2.1", ⟨"Foo", []⟩)]⟩)],
       some "Module 1", some "Topic 2.1", none⟩ := by
  have h := C6_placeholder_parents.1 initState "2.1 Foo" "2.1".data "Foo".data
    rfl (by decide) (by decide)
  rw [h]
  decide

/-- `isPrefixOf` on an empty needle. -/
theorem pfx_nil (l : List Char) : List.isPrefixOf ([] : List Char) l = true := by
  cases l <;> rfl

/-- `isPrefixOf` unfolding on two cons cells. -/
theorem pfx_cons (a b : Char) (l1 l2 : List Char) :
    (a :: l1).isPrefixOf (b :: l2) = (a == b && l1.isPrefixOf l2) := rfl

/-- Every list is a prefix of itself extended on the right. -/
theorem pfx_append (l r : List Char) : l.isPrefixOf (l ++ r) = true := by
  induction l with
  | nil => rw [List.nil_append]; exact pfx_nil r
  | cons a t ih => simp [pfx_cons, ih]

/-- A list is a prefix of itself. -/
theorem pfx_self (l : List Char) : l.isPrefixOf l = true := by
  have := pfx_append l []
  simpa using this

/-- Transitivity of the boolean prefix test. -/
theorem pfx_trans {l1 l2 l3 : List Char} (h1 : l1.isPrefixOf l2 = true)
    (h2 : l2.isPrefixOf l3 = true) : l1.isPrefixOf l3 = true := by
  rw [List.isPrefixOf_iff_prefix] at *
  exact h1.trans h2

/-- Mismatching heads refute the boolean prefix test. -/
theorem pfx_head_ne {a b : Char} (h : (a == b) = false) (l1 l2 : List Char) :
    (a :: l1).isPrefixOf (b :: l2) = false := by
  simp [pfx_cons, h]

/-- `findIn` at a match position. -/
theorem findIn_pfx {n hay : List Char} (h : n.isPrefixOf hay = true) :
    findIn n hay = some 0 := by
  rw [findIn.eq_def, if_pos h]

/-- `findIn` steps over a non-match position. -/
theorem findIn_cons_neg {n : List Char} {c : Char} {t : List Char}
    (h : n.isPrefixOf (c :: t) = false) :
    findIn n (c :: t) = (findIn n t).map (· + 1) := by
  rw [findIn.eq_def, if_neg (by simp [h])]

/-- Decompose a failed search at a cons cell. -/
theorem findIn_cons_none {n : List Char} {c : Char} {t : List Char}
    (h : findIn n (c :: t) = none) :
    n.isPrefixOf (c :: t) = false ∧ findIn n t = none := by
  by_cases hp : n.isPrefixOf (c :: t)
  · rw [findIn_pfx hp] at h
    exact Option.noConfusion h
  · have hp2 : n.isPrefixOf (c :: t) = false := Bool.eq_false_iff.mpr hp
    rw [findIn_cons_neg hp2] at h
    exact ⟨hp2, Option.map_eq_none'.mp h⟩

/-- A non-empty needle never matches an empty haystack. -/
theorem pfx_cons_nil (a : Char) (l : List Char) : (a :: l).isPrefixOf [] = false := by
  rfl

/-- Searching an empty haystack for a non-empty needle fails. -/
theorem findIn_cons_nil (b : Char) (t2 : List Char) : findIn (b :: t2) [] = none := by
  rw [findIn.eq_def, if_neg (by simp [pfx_cons_nil])]

/-- If a pattern is absent, so is every extension of it. -/
theorem findIn_none_of_pfx {n1 n2 : List Char} (hp : n1.isPrefixOf n2 = true) :
    ∀ hay, findIn n1 hay = none → findIn n2 hay = none := by
  intro hay
  induction hay with
  | nil =>
      intro h
      rcases hn1 : n1 with _ | ⟨a, t1⟩
      · rw [hn1, findIn_pfx (pfx_nil [])] at h
        exact Option.noConfusion h
      · rcases hn2 : n2 with _ | ⟨b, t2⟩
        · rw [hn1, hn2] at hp
          exact absurd hp (by simp [List.isPrefixOf])
        · exact findIn_cons_nil b t2
  | cons c t ih =>
      intro h
      obtain ⟨hp1, hn1⟩ := findIn_cons_none h
      have hp2 : n2.isPrefixOf (c :: t) = false := by
        by_cases hq : n2.isPrefixOf (c :: t) = true
        · exact absurd (pfx_trans hp hq) (by simp [hp1])
        · exact Bool.eq_false_iff.mpr hq
      rw [findIn_cons_neg hp2, ih hn1]
      rfl

/-- The fence marker written out as characters. -/
theorem fence_chars : fenceL = ['\x60', '\x60', '\x60'] := by decide

/-- A list holding no fence is still fence-free when a newline-led suffix is
glued on, at its head position. -/
theorem fence_no_pfx_extend {c : Char} {t : List Char}
    (h1 : fenceL.isPrefixOf (c :: t) = false) (h2 : findIn fenceL t = none) :
    fenceL.isPrefixOf (c :: (t ++ '\n' :: fenceL)) = false := by
  rcases t with _ | ⟨a, t1⟩
  · rw [fence_chars]
    simp only [List.nil_append]
    rw [pfx_cons]
    rw [pfx_head_ne (by decide)]
    simp
  · rcases t1 with _ | ⟨b, t2⟩
    · rw [fence_chars]
      simp only [List.cons_append, List.nil_append]
      rw [pfx_cons, pfx_cons]
      rw [pfx_head_ne (by decide)]
      simp
    · rw [fence_chars] at h1 ⊢
      simp only [List.cons_append]
      simp only [pfx_cons, pfx_nil, Bool.and_true] at h1 ⊢
      exact h1

/-- Searching a fence-free list followed by `"\n```"` finds the fence right
after the newline. -/
theorem findIn_fence_append (j : List Char) (h : findIn fenceL j = none) :
    findIn fenceL (j ++ '\n' :: fenceL) = some (j.length + 1) := by
  induction j with
  | nil => decide
  | cons c t ih =>
      obtain ⟨hp1, hn1⟩ := findIn_cons_none h
      rw [List.cons_append, findIn_cons_neg (fence_no_pfx_extend hp1 hn1), ih hn1]
      simp

/-- Stripping on the left eats a leading whitespace character. -/
theorem lstrip_cons_white {c : Char} (hc : isPySpace c = true) (x : List Char) :
    lstripL (c :: x) = lstripL x := by
  simp [lstripL, List.dropWhile_cons, hc]

/-- Stripping on the right eats a trailing whitespace character. -/
theorem rstrip_append_white {c : Char} (hc : isPySpace c = true) (x : List Char) :
    rstripL (x ++ [c]) = rstripL x := by
  simp [rstripL, List.reverse_append, List.dropWhile_cons, hc]

/-- Right-stripping is idempotent. -/
theorem rstrip_idem (l : List Char) : rstripL (rstripL l) = rstripL l := by
  simp [rstripL, List.reverse_reverse, List.dropWhile_idempotent]

/-- Left-stripping is idempotent. -/
theorem lstrip_idem (l : List Char) : lstripL (lstripL l) = lstripL l := by
  simp [lstripL, List.dropWhile_idempotent]

/-- `dropWhile` never lengthens a list. -/
theorem dropWhile_length_le (p : Char → Bool) (l : List Char) :
    (l.dropWhile p).length ≤ l.length := by
  induction l with
  | nil => simp
  | cons c t ih =>
      by_cases h : p c <;> simp [List.dropWhile_cons, h] <;> omega

/-- A right-stripped list stays right-stripped after left-stripping. -/
theorem rstrip_lstrip_of_rstripped {z : List Char} (h : rstripL z = z) :
    rstripL (lstripL z) = lstripL z := by
  by_cases hd : z.dropWhile isPySpace = []
  · rw [lstripL, hd]
    rfl
  · have hz : z.reverse = (z.dropWhile isPySpace).reverse ++ (z.takeWhile isPySpace).reverse := by
      rw [← List.reverse_append, List.takeWhile_append_dropWhile]
    have h' : z.reverse.dropWhile isPySpace = z.reverse := by
      have h2 := congrArg List.reverse h
      simpa [rstripL] using h2
    rw [hz, List.dropWhile_append] at h'
    by_cases hD : ((z.dropWhile isPySpace).reverse.dropWhile isPySpace).isEmpty
    · rw [if_pos hD] at h'
      have hlen := congrArg List.length h'
      simp only [List.length_append] at hlen
      have hle := dropWhile_length_le isPySpace (z.takeWhile isPySpace).reverse
      have hpos : 0 < (z.dropWhile isPySpace).reverse.length := by
        simp [List.length_reverse]
        exact List.length_pos.mpr hd
      omega
    · rw [if_neg hD] at h'
      have hcan : (z.dropWhile isPySpace).reverse.dropWhile isPySpace =
          (z.dropWhile isPySpace).reverse := List.append_cancel_right h'
      rw [lstripL, rstripL, hcan]
      simp

/-- Python `strip` is idempotent. -/
theorem pyStrip_idem (l : List Char) : pyStripL (pyStripL l) = pyStripL l := by
  rw [pyStripL, pyStripL, rstrip_lstrip_of_rstripped (rstrip_idem l), lstrip_idem]

/-- Stripping removes a whitespace character wrapped on both sides. -/
theorem lstrip_rstrip_cons {c : Char} (hc : isPySpace c = true) (x : List Char) :
    lstripL (rstripL (c :: x)) = lstripL (rstripL x) := by
  have hrw : (c :: x).reverse = x.reverse ++ [c] := by simp
  rw [rstripL, hrw, List.dropWhile_append]
  by_cases hD : (x.reverse.dropWhile isPySpace).isEmpty
  · rw [if_pos hD]
    have hx : rstripL x = [] := by
      rw [rstripL]
      simp only [List.isEmpty_iff] at hD
      simp [hD]
    rw [hx]
    simp [List.dropWhile_cons, hc]
  · rw [if_neg hD]
    simp only [List.reverse_append]
    rw [show ([c] : List Char).reverse = [c] from rfl]
    rw [show ([c] ++ (x.reverse.dropWhile isPySpace).reverse : List Char) =
      c :: (x.reverse.dropWhile isPySpace).reverse from rfl]
    rw [lstrip_cons_white hc]
    rfl

/-- The whole strip of `"\n" ++ j ++ "\n"` equals the strip of `j`. -/
theorem pyStrip_wrapped (j : List Char) :
    pyStripL ('\n' :: j ++ ['\n']) = pyStripL j := by
  have h1 : ('\n' :: j ++ ['\n'] : List Char) = ('\n' :: j) ++ ['\n'] := by simp
  rw [pyStripL, h1, rstrip_append_white (by decide), lstrip_rstrip_cons (by decide)]
  rfl

/-- With no fence marker anywhere and a leading brace after stripping, the
cleaner is just `strip`. -/
theorem clean_unfenced (j : String)
    (hnof : findIn jsonFenceL j.data = none)
    (hb : braceL.isPrefixOf (pyStripL j.data) = true) :
    clean_json_response j = ⟨pyStripL j.data⟩ := by
  unfold clean_json_response
  have hcs : containsSub j.data jsonFenceL = false := by
    simp [containsSub, hnof]
  simp [hcs, hb]

/-- The fenced wrapping of a fence-free JSON text cleans to its strip. -/
theorem clean_fenced (j : String)
    (hfence : findIn fenceL j.data = none)
    (hb : braceL.isPrefixOf (pyStripL j.data) = true) :
    clean_json_response (wrapFence j) = ⟨pyStripL j.data⟩ := by
  have hdata : (wrapFence j).data = jsonFenceL ++ ('\n' :: (j.data ++ '\n' :: fenceL)) := by
    simp only [wrapFence, String.data_append]
    rw [show jsonFenceL = ['\x60', '\x60', '\x60', 'j', 's', 'o', 'n'] from by decide,
      fence_chars]
    simp
  have hfind0 : findIn jsonFenceL (wrapFence j).data = some 0 := by
    rw [hdata]
    exact findIn_pfx (pfx_append _ _)
  have hdrop : (wrapFence j).data.drop 7 = '\n' :: (j.data ++ '\n' :: fenceL) := by
    rw [hdata]
    exact List.drop_left' (by decide)
  have hnp : fenceL.isPrefixOf ('\n' :: (j.data ++ '\n' :: fenceL)) = false := by
    rw [fence_chars]
    exact pfx_head_ne (by decide) _ _
  have hfind1 : findIn fenceL ((wrapFence j).data.drop 7) = some (j.data.length + 2) := by
    rw [hdrop, findIn_cons_neg hnp, findIn_fence_append j.data hfence]
    rfl
  have hslice : sliceL (wrapFence j).data 7 (7 + (j.data.length + 2)) =
      '\n' :: j.data ++ ['\n'] := by
    simp only [sliceL]
    rw [hdrop]
    have harr : ('\n' :: (j.data ++ '\n' :: fenceL)) =
        ('\n' :: j.data ++ ['\n']) ++ fenceL := by simp
    rw [harr]
    have hn : 7 + (j.data.length + 2) - 7 = ('\n' :: j.data ++ ['\n']).length := by
      simp
    rw [hn, List.take_left]
  have hcs : containsSub (wrapFence j).data jsonFenceL = true := by
    simp [containsSub, hfind0]
  unfold clean_json_response
  dsimp only
  rw [hcs]
  simp only [if_true]
  rw [hfind0]
  simp only [Option.getD_some, Nat.zero_add]
  rw [hfind1]
  simp only []
  rw [if_pos (by omega : 7 < 7 + (j.data.length + 2))]
  rw [hslice, pyStrip_wrapped, pyStrip_idem, hb]
  simp

/-- C7 counterexample: the JSON object text `j0` (curly braces shown as
`\x7b`/`\x7d`) whose sole string value contains a ``` marker is valid JSON
— parsing it verbatim yields the one-entry map — yet wrapping the same
text in a ```json fenced block makes the cleaner cut the response at the
embedded marker, the parse fails, and the fallback ladder synthesizes a
different artifact map: the fenced and verbatim stages disagree. -/
theorem C7_counterexample :
    jsonParseFlat "\x7b\"a\":\"```\"\x7d" = some [("a", "```")] ∧
    clean_json_response (wrapFence "\x7b\"a\":\"```\"\x7d") ≠
      clean_json_response "\x7b\"a\":\"```\"\x7d" ∧
    parse_prompt_response [("T", "c")] (wrapFence "\x7b\"a\":\"```\"\x7d") ≠
      parse_prompt_response [("T", "c")] "\x7b\"a\":\"```\"\x7d" ∧
    parse_prompt_response [("T", "c")] "\x7b\"a\":\"```\"\x7d" = [("a", "```")] := by
  decide

/-- C7 amended: for every JSON object text `j` that contains no ```
fence marker and starts with a brace once stripped, the fenced and
verbatim stages of the fallback ladder agree: the cleaner returns the same
string for the ```json-wrapped response as for the bare one, hence the
response parser produces exactly the same artifact map for both. -/
theorem C7_fenced_verbatim_agree (j : String)
    (hfence : findIn fenceL j.data = none)
    (hb : braceL.isPrefixOf (pyStripL j.data) = true) :
    clean_json_response (wrapFence j) = clean_json_response j ∧
    ∀ slides_info, parse_prompt_response slides_info (wrapFence j) =
      parse_prompt_response slides_info j := by
  have hnof : findIn jsonFenceL j.data = none :=
    findIn_none_of_pfx (by decide) j.data hfence
  have heq : clean_json_response (wrapFence j) = clean_json_response j := by
    rw [clean_fenced j hfence hb, clean_unfenced j hnof hb]
  refine ⟨heq, fun slides_info => ?_⟩
  unfold parse_prompt_response
  rw [heq]

/-- Witness for `C7_fenced_verbatim_agree` at a concrete JSON object. -/
theorem C7_agree_witness :
    findIn fenceL ("\x7b\"a\":\"b\"\x7d" : String).data = none ∧
    braceL.isPrefixOf (pyStripL ("\x7b\"a\":\"b\"\x7d" : String).data) = true ∧
    clean_json_response (wrapFence "\x7b\"a\":\"b\"\x7d") =
      clean_json_response "\x7b\"a\":\"b\"\x7d" :=
  ⟨by decide, by decide,
   (C7_fenced_verbatim_agree "\x7b\"a\":\"b\"\x7d" (by decide) (by decide)).1⟩
